import Mathlib

set_option maxHeartbeats 1000000

/-!
Verification of the celluloid mutation-clustering core (src/phylo/celluloid.py).

The dissimilarity function `_conflict_dissim` is embedded together with the
two numpy operations it uses (`np.vectorize` of the conflict lambda with
broadcasting, and `np.sum(_, axis = 1)`).  The orchestrator
`cluster_mutations` is embedded with Python's numeric parameter handling,
the two `ValueError` raises as `Except` errors, the `defaultdict(list)`
grouping loop, `sorted`, `','.join` and the transposes.  The GenotypeMatrix
container and the external KModes clusterer live outside this repository's
sources; they are modelled from the specification's interface: the container
as a record of grid plus labels, the clusterer as an opaque function
parameter returning per-point cluster ids and centroids.
-/

/-- A one- or two-dimensional numpy array, as used by the dissimilarity code. -/
inductive NDArray (α : Type) where
  | vec : List α → NDArray α
  | mat : List (List α) → NDArray α
  deriving DecidableEq

/-- The elementwise conflict test, from the lambda inside `_conflict_dissim`:
`ai != 2 and bi != 2 and ai != bi`. -/
def conflictB (ai bi : ℕ) : Bool :=
  ai != 2 && bi != 2 && ai != bi

/-- `np.vectorize` of the conflict lambda, with numpy broadcasting between a
one-dimensional and a two-dimensional argument (equal trailing lengths are a
precondition of the callers, per the spec). -/
def vectorizeConflict : NDArray ℕ → NDArray ℕ → NDArray Bool
  | .vec a, .vec b => .vec (List.zipWith conflictB a b)
  | .vec a, .mat b => .mat (b.map fun r => List.zipWith conflictB a r)
  | .mat a, .vec b => .mat (a.map fun r => List.zipWith conflictB r b)
  | .mat a, .mat b => .mat (List.zipWith (List.zipWith conflictB) a b)

/-- `np.sum(_, axis = 1)`: sums each row of a two-dimensional array (on a
boolean array this counts the true entries); on a one-dimensional array numpy
raises an axis-out-of-bounds error. -/
def npSumAxis1 : NDArray Bool → Except String (NDArray ℕ)
  | .vec _ => .error "axis 1 is out of bounds for array of dimension 1"
  | .mat rows => .ok (.vec (rows.map fun r => r.count true))

/-- Embedding of `_conflict_dissim` from src/phylo/celluloid.py:
`np.sum(v(a, b), axis = 1)` where `v` is the vectorized conflict lambda. -/
def conflict_dissim (a b : NDArray ℕ) : Except String (NDArray ℕ) :=
  npSumAxis1 (vectorizeConflict a b)

/-- The dissimilarity as the specification words it: the number of positions
`i` with `a[i] != 2`, `b[i] != 2` and `a[i] != b[i]`.  Stated from the
spec's words, for comparison against the code's `conflict_dissim`. -/
def spec_conflict_count (a b : List ℕ) : ℕ :=
  (List.range a.length).countP fun i =>
    decide (a.getD i 0 ≠ 2 ∧ b.getD i 0 ≠ 2 ∧ a.getD i 0 ≠ b.getD i 0)

lemma conflictB_eq_decide (x y : ℕ) :
    conflictB x y = decide (x ≠ 2 ∧ y ≠ 2 ∧ x ≠ y) := by
  by_cases hx : x = 2 <;> by_cases hy : y = 2 <;> by_cases hxy : x = y <;>
    simp [conflictB, hx, hy, hxy]

lemma conflictB_comm (x y : ℕ) : conflictB x y = conflictB y x := by
  rw [conflictB_eq_decide, conflictB_eq_decide]
  apply decide_eq_decide.mpr
  constructor
  · rintro ⟨h1, h2, h3⟩; exact ⟨h2, h1, h3.symm⟩
  · rintro ⟨h1, h2, h3⟩; exact ⟨h2, h1, h3.symm⟩

lemma countP_range_succ_shift (p : ℕ → Bool) (n : ℕ) :
    (List.range (n + 1)).countP p
      = (List.range n).countP (fun i => p (i + 1)) + (if p 0 then 1 else 0) := by
  rw [List.range_succ_eq_map, List.countP_cons, List.countP_map]
  rfl

lemma count_zipWith_eq_spec (a : List ℕ) : ∀ b : List ℕ, b.length = a.length →
    (List.zipWith conflictB a b).count true = spec_conflict_count a b := by
  induction a with
  | nil => intro b _; simp [spec_conflict_count]
  | cons x a ih =>
    intro b hb
    cases b with
    | nil => simp at hb
    | cons y b =>
      have hb' : b.length = a.length := by simpa using hb
      have hs : spec_conflict_count (x :: a) (y :: b)
          = spec_conflict_count a b + (if conflictB x y then 1 else 0) := by
        show (List.range (a.length + 1)).countP _ = _
        rw [countP_range_succ_shift]
        congr 1
        rw [conflictB_eq_decide]
        simp [List.getD_cons_zero]
      rw [List.zipWith_cons_cons, List.count_cons, ih b hb', hs]
      by_cases h : conflictB x y <;> simp [h]

lemma conflict_dissim_vec_mat (a : List ℕ) (rows : List (List ℕ)) :
    conflict_dissim (.vec a) (.mat rows)
      = .ok (.vec (rows.map fun r => (List.zipWith conflictB a r).count true)) := by
  simp [conflict_dissim, vectorizeConflict, npSumAxis1, List.map_map, Function.comp]

/-- C1: for equal-length ternary vectors, the batched dissimilarity of `a`
against a grid of candidate rows returns, for each row `b`, exactly the
number of positions `i` with `a[i] != 2`, `b[i] != 2` and `a[i] != b[i]`
(missing values never contribute); in particular
`dissim([0,1,2,0], [[0,0,2,1]]) = [2]`. -/
theorem conflict_dissim_batched_correct (a : List ℕ) (rows : List (List ℕ))
    (h : ∀ b ∈ rows, b.length = a.length) :
    conflict_dissim (.vec a) (.mat rows)
      = .ok (.vec (rows.map fun b => spec_conflict_count a b))
    ∧ conflict_dissim (.vec [0, 1, 2, 0]) (.mat [[0, 0, 2, 1]])
      = .ok (.vec [2]) := by
  constructor
  · rw [conflict_dissim_vec_mat]
    exact congrArg (fun l => Except.ok (NDArray.vec l))
      (List.map_congr_left fun b hb => count_zipWith_eq_spec a b (h b hb))
  · rfl

/-- Witness for `conflict_dissim_batched_correct` at the spec's concrete
example input. -/
theorem conflict_dissim_batched_correct_wit :
    (∀ b ∈ [[0, 0, 2, 1]], List.length b = List.length [0, 1, 2, 0])
    ∧ (conflict_dissim (.vec [0, 1, 2, 0]) (.mat [[0, 0, 2, 1]])
        = .ok (.vec (List.map (fun b => spec_conflict_count [0, 1, 2, 0] b)
            [[0, 0, 2, 1]]))
      ∧ conflict_dissim (.vec [0, 1, 2, 0]) (.mat [[0, 0, 2, 1]])
        = .ok (.vec [2])) :=
  ⟨by decide, conflict_dissim_batched_correct [0, 1, 2, 0] [[0, 0, 2, 1]] (by decide)⟩

/-- C6 counterexample: called on the single-pair form (two plain vectors of
equal length, here `a = [0,1,2,0]`, `b = [0,0,2,1]` whose conflict count is
2), the dissimilarity does not return an integer: summing along axis 1 of
the one-dimensional conflict vector fails with numpy's axis error. -/
theorem conflict_dissim_pair_cex :
    conflict_dissim (.vec [0, 1, 2, 0]) (.vec [0, 0, 2, 1])
      = .error "axis 1 is out of bounds for array of dimension 1" := rfl

/-- C6 amended: for every pair of ternary vectors given as two single
vectors, the dissimilarity function does not return a conflict count: the
implementation always sums along axis 1, which does not exist for the
one-dimensional conflict vector, so every single-pair call fails with an
axis-out-of-bounds error; only the batched form returns counts. -/
theorem conflict_dissim_pair_axis_error (a b : List ℕ) :
    conflict_dissim (.vec a) (.vec b)
      = .error "axis 1 is out of bounds for array of dimension 1" := rfl

/-- C7: the dissimilarity (batched against a single candidate row, the only
form the code supports) is symmetric, and it is zero exactly when `a` and
`b` have no position where both values are non-missing and disagree. -/
theorem conflict_dissim_symm_and_zero_iff (a b : List ℕ) (h : a.length = b.length) :
    conflict_dissim (.vec a) (.mat [b]) = conflict_dissim (.vec b) (.mat [a])
    ∧ (conflict_dissim (.vec a) (.mat [b]) = .ok (.vec [0])
        ↔ ∀ i < a.length,
            ¬(a.getD i 0 ≠ 2 ∧ b.getD i 0 ≠ 2 ∧ a.getD i 0 ≠ b.getD i 0)) := by
  constructor
  · rw [conflict_dissim_vec_mat, conflict_dissim_vec_mat]
    simp only [List.map_cons, List.map_nil]
    rw [List.zipWith_comm_of_comm conflictB conflictB_comm a b]
  · rw [conflict_dissim_vec_mat]
    simp only [List.map_cons, List.map_nil, Except.ok.injEq, NDArray.vec.injEq,
      List.cons.injEq, and_true]
    rw [count_zipWith_eq_spec a b h.symm]
    unfold spec_conflict_count
    rw [List.countP_eq_zero]
    constructor
    · intro hz i hi
      have := hz i (List.mem_range.mpr hi)
      simpa using this
    · intro hz i hi
      have := hz i (List.mem_range.mp hi)
      simpa using this

/-- Witness for `conflict_dissim_symm_and_zero_iff` at a concrete input. -/
theorem conflict_dissim_symm_and_zero_iff_wit :
    List.length [0, 1, 2, 0] = List.length [0, 0, 2, 1]
    ∧ (conflict_dissim (.vec [0, 1, 2, 0]) (.mat [[0, 0, 2, 1]])
          = conflict_dissim (.vec [0, 0, 2, 1]) (.mat [[0, 1, 2, 0]])
      ∧ (conflict_dissim (.vec [0, 1, 2, 0]) (.mat [[0, 0, 2, 1]]) = .ok (.vec [0])
          ↔ ∀ i < List.length [0, 1, 2, 0],
              ¬(List.getD [0, 1, 2, 0] i 0 ≠ 2 ∧ List.getD [0, 0, 2, 1] i 0 ≠ 2 ∧
                List.getD [0, 1, 2, 0] i 0 ≠ List.getD [0, 0, 2, 1] i 0))) :=
  ⟨by decide, conflict_dissim_symm_and_zero_iff [0, 1, 2, 0] [0, 0, 2, 1] (by decide)⟩

lemma count_zipWith_all_missing (a : List ℕ) : ∀ b : List ℕ,
    ((∀ x ∈ a, x = 2) ∨ (∀ x ∈ b, x = 2)) →
    (List.zipWith conflictB a b).count true = 0 := by
  induction a with
  | nil => intro b _; simp
  | cons x a ih =>
    intro b hall
    cases b with
    | nil => simp
    | cons y b =>
      have hhead : conflictB x y = false := by
        rcases hall with hL | hR
        · have hx : x = 2 := hL x (by simp)
          simp [conflictB, hx]
        · have hy : y = 2 := hR y (by simp)
          simp [conflictB, hy]
      have htail : ((∀ x ∈ a, x = 2) ∨ (∀ x ∈ b, x = 2)) := by
        rcases hall with hL | hR
        · exact Or.inl fun z hz => hL z (by simp [hz])
        · exact Or.inr fun z hz => hR z (by simp [hz])
      rw [List.zipWith_cons_cons, List.count_cons, ih b htail, hhead]
      simp

/-- C8: whenever every position of `a`, or every position of `b`, is the
missing value 2, the dissimilarity of the pair (batched against the single
candidate row) is 0. -/
theorem conflict_dissim_all_missing_zero (a b : List ℕ)
    (h : a.length = b.length)
    (hall : (∀ x ∈ a, x = 2) ∨ (∀ x ∈ b, x = 2)) :
    conflict_dissim (.vec a) (.mat [b]) = .ok (.vec [0]) := by
  rw [conflict_dissim_vec_mat]
  simp [count_zipWith_all_missing a b hall]

/-- Witness for `conflict_dissim_all_missing_zero` at a concrete input. -/
theorem conflict_dissim_all_missing_zero_wit :
    List.length [2, 2] = List.length [0, 1]
    ∧ ((∀ x ∈ [2, 2], x = 2) ∨ (∀ x ∈ [0, 1], x = 2))
    ∧ conflict_dissim (.vec [2, 2]) (.mat [[0, 1]]) = .ok (.vec [0]) :=
  ⟨by decide, by decide,
    conflict_dissim_all_missing_zero [2, 2] [0, 1] (by decide) (by decide)⟩

/-- A Python number as passed for k and number_of_iterations: an int, a
float (idealised as an exact rational), or a bool (False is 0, True is 1). -/
inductive PyNum where
  | int : ℤ → PyNum
  | float : ℚ → PyNum
  | bool : Bool → PyNum
  deriving DecidableEq

/-- The numeric value of a Python number, as used by its comparisons. -/
def PyNum.val : PyNum → ℚ
  | .int n => n
  | .float q => q
  | .bool b => if b then 1 else 0

/-- Python's int() applied to a number: truncation toward zero. -/
def pyTruncInt (q : ℚ) : ℤ :=
  q.num.tdiv q.den

/-- The ValueError raised by cluster_mutations, by parameter: the message
names the parameter ("the number of clusters" / "the number of iterations")
and interpolates the offending value. -/
inductive CelluloidError where
  | clustersNotPositiveInt : PyNum → CelluloidError
  | iterationsNotPositiveInt : PyNum → CelluloidError
  deriving DecidableEq

/-- Modelled from the spec: the GenotypeMatrix container
(phylo.core.genotypematrix, not under src/) reduced to the interface the
core consumes and produces: a grid of ternary values with rows as cells and
columns as mutations, cell labels, mutation labels, and the constructor
taking those three fields.  Strings are lists of characters. -/
structure GenotypeMatrix where
  matrix : List (List ℕ)
  cell_labels : List (List Char)
  mutation_labels : List (List Char)
  deriving DecidableEq

/-- Modelled from the spec: the external KModes clusterer (the kmodes
package, not part of this repository) as a black box.  Applied to
n_clusters, n_init and the points grid, it yields the per-point cluster ids
(fit_predict, equal to labels_) and the centroid grid
(cluster_centroids_). -/
def Clusterer : Type :=
  PyNum → PyNum → List (List ℕ) → List ℕ × List (List ℕ)

/-- numpy's transpose of a rectangular two-dimensional array. -/
def npTranspose (m : List (List ℕ)) : List (List ℕ) :=
  (List.range (m.headD []).length).map fun j => m.map fun row => row.getD j 0

/-- One step of the defaultdict(list) loop: append label l to the entry of
key c, creating the entry at the end (dict insertion order) if absent. -/
def dictAppend (d : List (ℕ × List (List Char))) (c : ℕ) (l : List Char) :
    List (ℕ × List (List Char)) :=
  match d with
  | [] => [(c, [l])]
  | (c', ls) :: rest =>
    if c' = c then (c', ls ++ [l]) :: rest else (c', ls) :: dictAppend rest c l

/-- Lookup in the association-list dict; a missing key gives the
defaultdict(list) default []. -/
def dictGet (d : List (ℕ × List (List Char))) (c : ℕ) : List (List Char) :=
  match d with
  | [] => []
  | (c', ls) :: rest => if c' = c then ls else dictGet rest c

/-- Python's ','.join over a list of strings: no leading or trailing
separator, a single comma between consecutive elements. -/
def joinComma : List (List Char) → List Char
  | [] => []
  | [l] => l
  | l :: l' :: ls => l ++ ',' :: joinComma (l' :: ls)

/-- Splitting a string on every comma, the way the specification's
label-partition property reads the output labels back. -/
def splitComma : List Char → List (List Char)
  | [] => [[]]
  | c :: rest =>
    if c = ',' then [] :: splitComma rest
    else
      match splitComma rest with
      | [] => [[c]]
      | h :: t => (c :: h) :: t

/-- The defaultdict(list) loop of cluster_mutations (lines 82-85): the dict
mapping each assigned cluster id to the labels of its mutations, built by
one pass over zip(mutation_labels, clusters_of_mutations). -/
def clusteredLabelsDict (mutation_labels : List (List Char)) (clusters_of_mutations : List ℕ) :
    List (ℕ × List (List Char)) :=
  (List.zip mutation_labels clusters_of_mutations).foldl
    (fun d p => dictAppend d p.2 p.1) []

/-- `sorted(nonempty_clusters)` of cluster_mutations (lines 87-90): the keys
of the label dict — exactly the cluster ids that received a mutation — in
ascending order. -/
def sortedNonemptyClusters (mutation_labels : List (List Char))
    (clusters_of_mutations : List ℕ) : List ℕ :=
  List.insertionSort (· ≤ ·)
    ((clusteredLabelsDict mutation_labels clusters_of_mutations).map Prod.fst)

/-- The body of cluster_mutations after parameter validation (lines 67-96 of
src/phylo/celluloid.py): transpose so mutations become points, run the
clusterer, group the mutation labels by assigned cluster id with a
defaultdict(list), keep the keys that occur (the non-empty clusters), sort
them, join each group's labels with commas, select the centroids, transpose
back and build the output GenotypeMatrix with the input's cell labels. -/
def runClustering (clusterer : Clusterer) (genotype_matrix : GenotypeMatrix)
    (k number_of_iterations : PyNum) : GenotypeMatrix :=
  let mutations_as_points := npTranspose genotype_matrix.matrix
  let mutation_labels := genotype_matrix.mutation_labels
  let fitted := clusterer k number_of_iterations mutations_as_points
  let clusters_of_mutations := fitted.1
  let cluster_centroids := fitted.2
  let clustered_mutation_labels := clusteredLabelsDict mutation_labels clusters_of_mutations
  let sorted_clusters := sortedNonemptyClusters mutation_labels clusters_of_mutations
  let clustered_mutation_labels_strings :=
    sorted_clusters.map fun cid => joinComma (dictGet clustered_mutation_labels cid)
  let out_matrix := sorted_clusters.map fun cid => cluster_centroids.getD cid []
  { matrix := npTranspose out_matrix,
    cell_labels := genotype_matrix.cell_labels,
    mutation_labels := clustered_mutation_labels_strings }

/-- Embedding of cluster_mutations from src/phylo/celluloid.py.  The two
raises mirror lines 62-65: `int(k) != k or k < 1`, then the same check for
number_of_iterations; only then does the clustering body run. -/
def cluster_mutations (clusterer : Clusterer) (genotype_matrix : GenotypeMatrix)
    (k : PyNum) (number_of_iterations : PyNum := .int 10) :
    Except CelluloidError GenotypeMatrix :=
  if ¬((pyTruncInt k.val : ℚ) = k.val) ∨ k.val < 1 then
    .error (.clustersNotPositiveInt k)
  else if ¬((pyTruncInt number_of_iterations.val : ℚ) = number_of_iterations.val)
      ∨ number_of_iterations.val < 1 then
    .error (.iterationsNotPositiveInt number_of_iterations)
  else
    .ok (runClustering clusterer genotype_matrix k number_of_iterations)

/-- State-passing form of the call: the input GenotypeMatrix object is the
state; validation happens before any access to it, the body only reads it,
and no statement ever writes it back. -/
def cluster_mutations_stateful (clusterer : Clusterer) (k number_of_iterations : PyNum) :
    StateM GenotypeMatrix (Except CelluloidError GenotypeMatrix) := do
  if ¬((pyTruncInt k.val : ℚ) = k.val) ∨ k.val < 1 then
    return .error (.clustersNotPositiveInt k)
  else if ¬((pyTruncInt number_of_iterations.val : ℚ) = number_of_iterations.val)
      ∨ number_of_iterations.val < 1 then
    return .error (.iterationsNotPositiveInt number_of_iterations)
  else
    let genotype_matrix ← get
    return .ok (runClustering clusterer genotype_matrix k number_of_iterations)

/-- A trivial concrete clusterer used to instantiate witnesses: every point
goes to cluster 0, whose centroid is [0]. -/
def clusterer0 : Clusterer := fun _ _ _ => ([0], [[0]])

/-- A one-cell, one-mutation concrete genotype matrix for witnesses. -/
def gm0 : GenotypeMatrix :=
  { matrix := [[0]], cell_labels := [['c']], mutation_labels := [['m']] }

/-- C2: whenever k is not a positive integer (k = 0 and the fractional
k = 5/2 included), or k is fine but number_of_iterations is not a positive
integer, cluster_mutations signals the invalid-parameter error that names
that parameter and carries its value — and it does so for every clusterer,
i.e. before any clustering work. -/
theorem cluster_mutations_validation (m : GenotypeMatrix) :
    (∀ (k n : PyNum) (clusterer : Clusterer),
        (¬((pyTruncInt k.val : ℚ) = k.val) ∨ k.val < 1) →
        cluster_mutations clusterer m k n = .error (.clustersNotPositiveInt k))
    ∧ (∀ (k n : PyNum) (clusterer : Clusterer),
        ((pyTruncInt k.val : ℚ) = k.val ∧ 1 ≤ k.val) →
        (¬((pyTruncInt n.val : ℚ) = n.val) ∨ n.val < 1) →
        cluster_mutations clusterer m k n = .error (.iterationsNotPositiveInt n)) := by
  constructor
  · intro k n clusterer hk
    simp only [cluster_mutations, if_pos hk]
  · intro k n clusterer hk hn
    have hcond : ¬(¬((pyTruncInt k.val : ℚ) = k.val) ∨ k.val < 1) := by
      push_neg
      exact ⟨hk.1, hk.2⟩
    simp only [cluster_mutations, if_neg hcond, if_pos hn]

lemma five_halves_not_integral :
    ¬((pyTruncInt (PyNum.float (5 / 2)).val : ℚ) = (PyNum.float (5 / 2)).val) := by
  show ¬((pyTruncInt ((5 : ℚ) / 2) : ℚ) = (5 : ℚ) / 2)
  have hnum : ((5 : ℚ) / 2).num = 5 := by norm_num
  have hden : ((5 : ℚ) / 2).den = 2 := by norm_num
  have ht : pyTruncInt ((5 : ℚ) / 2) = 2 := by
    show ((5 : ℚ) / 2).num.tdiv ((5 : ℚ) / 2).den = 2
    rw [hnum, hden]
    rfl
  rw [ht]
  norm_num

/-- Witness for `cluster_mutations_validation`: k = 2.5 and k = 0 raise the
cluster-count error; a fractional number_of_iterations raises the iteration
error. -/
theorem cluster_mutations_validation_wit :
    ((¬((pyTruncInt (PyNum.float (5 / 2)).val : ℚ) = (PyNum.float (5 / 2)).val)
        ∨ (PyNum.float (5 / 2)).val < 1)
      ∧ cluster_mutations clusterer0 gm0 (.float (5 / 2)) (.int 10)
          = .error (.clustersNotPositiveInt (.float (5 / 2))))
    ∧ ((¬((pyTruncInt (PyNum.int 0).val : ℚ) = (PyNum.int 0).val)
        ∨ (PyNum.int 0).val < 1)
      ∧ cluster_mutations clusterer0 gm0 (.int 0) (.int 10)
          = .error (.clustersNotPositiveInt (.int 0)))
    ∧ (((pyTruncInt (PyNum.int 2).val : ℚ) = (PyNum.int 2).val ∧ 1 ≤ (PyNum.int 2).val)
      ∧ (¬((pyTruncInt (PyNum.float (5 / 2)).val : ℚ) = (PyNum.float (5 / 2)).val)
          ∨ (PyNum.float (5 / 2)).val < 1)
      ∧ cluster_mutations clusterer0 gm0 (.int 2) (.float (5 / 2))
          = .error (.iterationsNotPositiveInt (.float (5 / 2)))) :=
  ⟨⟨Or.inl five_halves_not_integral,
    (cluster_mutations_validation gm0).1 (.float (5 / 2)) (.int 10) clusterer0
      (Or.inl five_halves_not_integral)⟩,
   ⟨by decide,
    (cluster_mutations_validation gm0).1 (.int 0) (.int 10) clusterer0 (by decide)⟩,
   by decide,
   Or.inl five_halves_not_integral,
   (cluster_mutations_validation gm0).2 (.int 2) (.float (5 / 2)) clusterer0
     (by decide) (Or.inl five_halves_not_integral)⟩

/-- C10: the validation accepts any k and number_of_iterations whose numeric
value equals its integer truncation and is at least 1, whatever their Python
type, and then hands the matrix to the clusterer: in particular the float
2.0 and the bool True pass as k. -/
theorem cluster_mutations_accepts_integral (clusterer : Clusterer) (m : GenotypeMatrix)
    (k n : PyNum)
    (hk : (pyTruncInt k.val : ℚ) = k.val ∧ 1 ≤ k.val)
    (hn : (pyTruncInt n.val : ℚ) = n.val ∧ 1 ≤ n.val) :
    cluster_mutations clusterer m k n = .ok (runClustering clusterer m k n)
    ∧ cluster_mutations clusterer m (.float 2) n
        = .ok (runClustering clusterer m (.float 2) n)
    ∧ cluster_mutations clusterer m (.bool true) n
        = .ok (runClustering clusterer m (.bool true) n) := by
  have accept : ∀ k' : PyNum, (pyTruncInt k'.val : ℚ) = k'.val ∧ 1 ≤ k'.val →
      cluster_mutations clusterer m k' n = .ok (runClustering clusterer m k' n) := by
    intro k' hk'
    have hcondk : ¬(¬((pyTruncInt k'.val : ℚ) = k'.val) ∨ k'.val < 1) := by
      push_neg; exact ⟨hk'.1, hk'.2⟩
    have hcondn : ¬(¬((pyTruncInt n.val : ℚ) = n.val) ∨ n.val < 1) := by
      push_neg; exact ⟨hn.1, hn.2⟩
    simp only [cluster_mutations, if_neg hcondk, if_neg hcondn]
  exact ⟨accept k hk, accept (.float 2) (by decide), accept (.bool true) (by decide)⟩

/-- Witness for `cluster_mutations_accepts_integral` at concrete parameters. -/
theorem cluster_mutations_accepts_integral_wit :
    ((pyTruncInt (PyNum.int 1).val : ℚ) = (PyNum.int 1).val ∧ 1 ≤ (PyNum.int 1).val)
    ∧ ((pyTruncInt (PyNum.int 10).val : ℚ) = (PyNum.int 10).val
        ∧ 1 ≤ (PyNum.int 10).val)
    ∧ (cluster_mutations clusterer0 gm0 (.int 1) (.int 10)
        = .ok (runClustering clusterer0 gm0 (.int 1) (.int 10))
      ∧ cluster_mutations clusterer0 gm0 (.float 2) (.int 10)
          = .ok (runClustering clusterer0 gm0 (.float 2) (.int 10))
      ∧ cluster_mutations clusterer0 gm0 (.bool true) (.int 10)
          = .ok (runClustering clusterer0 gm0 (.bool true) (.int 10))) :=
  ⟨by decide, by decide,
    cluster_mutations_accepts_integral clusterer0 gm0 (.int 1) (.int 10)
      (by decide) (by decide)⟩

/-- C9: the call never mutates the input genotype matrix — in the
state-passing embedding the input object comes back with its grid, cell
labels and mutation labels unchanged by value — and the returned value is
the one cluster_mutations builds as a brand-new instance from its reads. -/
theorem cluster_mutations_input_unchanged (clusterer : Clusterer) (k n : PyNum)
    (gm : GenotypeMatrix) :
    (((cluster_mutations_stateful clusterer k n).run gm).2.matrix = gm.matrix
      ∧ ((cluster_mutations_stateful clusterer k n).run gm).2.cell_labels = gm.cell_labels
      ∧ ((cluster_mutations_stateful clusterer k n).run gm).2.mutation_labels
          = gm.mutation_labels)
    ∧ ((cluster_mutations_stateful clusterer k n).run gm).1
        = cluster_mutations clusterer gm k n := by
  by_cases h1 : ¬((pyTruncInt k.val : ℚ) = k.val) ∨ k.val < 1
  · simp only [cluster_mutations_stateful, cluster_mutations, if_pos h1]
    exact ⟨⟨rfl, rfl, rfl⟩, rfl⟩
  · by_cases h2 : ¬((pyTruncInt n.val : ℚ) = n.val) ∨ n.val < 1
    · simp only [cluster_mutations_stateful, cluster_mutations, if_neg h1, if_pos h2]
      exact ⟨⟨rfl, rfl, rfl⟩, rfl⟩
    · simp only [cluster_mutations_stateful, cluster_mutations, if_neg h1, if_neg h2]
      exact ⟨⟨rfl, rfl, rfl⟩, rfl⟩

lemma dictGet_dictAppend (d : List (ℕ × List (List Char))) (c c' : ℕ) (l : List Char) :
    dictGet (dictAppend d c l) c' =
      if c = c' then dictGet d c' ++ [l] else dictGet d c' := by
  induction d with
  | nil =>
    by_cases h : c = c' <;> simp [dictAppend, dictGet, h]
  | cons p rest ih =>
    obtain ⟨a, ls⟩ := p
    by_cases hac : a = c
    · subst hac
      by_cases hc' : a = c' <;> simp [dictAppend, dictGet, hc']
    · by_cases hc' : a = c'
      · subst hc'
        have hcc' : ¬c = a := fun hh => hac hh.symm
        simp [dictAppend, dictGet, hac, hcc']
      · simp [dictAppend, dictGet, hac, hc', ih]

lemma mem_keys_dictAppend (d : List (ℕ × List (List Char))) (c c' : ℕ) (l : List Char) :
    c' ∈ (dictAppend d c l).map Prod.fst ↔ c' ∈ d.map Prod.fst ∨ c' = c := by
  induction d with
  | nil => simp [dictAppend, eq_comm]
  | cons p rest ih =>
    obtain ⟨a, ls⟩ := p
    by_cases hac : a = c
    · subst hac
      simp [dictAppend]
      tauto
    · simp [dictAppend, hac, ih]
      tauto

lemma nodup_keys_dictAppend (d : List (ℕ × List (List Char))) (c : ℕ) (l : List Char)
    (h : (d.map Prod.fst).Nodup) : ((dictAppend d c l).map Prod.fst).Nodup := by
  induction d with
  | nil => simp [dictAppend]
  | cons p rest ih =>
    obtain ⟨a, ls⟩ := p
    simp only [List.map_cons, List.nodup_cons] at h
    by_cases hac : a = c
    · subst hac
      simp [dictAppend, List.nodup_cons, h.1, h.2]
    · simp only [dictAppend, if_neg hac, List.map_cons, List.nodup_cons]
      refine ⟨?_, ih h.2⟩
      rw [mem_keys_dictAppend]
      push_neg
      exact ⟨h.1, hac⟩

lemma dictGet_foldl (ps : List (List Char × ℕ)) :
    ∀ (d : List (ℕ × List (List Char))) (c : ℕ),
    dictGet (ps.foldl (fun d p => dictAppend d p.2 p.1) d) c
      = dictGet d c ++ (ps.filter fun p => p.2 == c).map Prod.fst := by
  induction ps with
  | nil => intro d c; simp
  | cons p ps ih =>
    intro d c
    rw [List.foldl_cons, ih, dictGet_dictAppend]
    by_cases h : p.2 = c
    · simp [List.filter_cons, h]
    · simp [List.filter_cons, h]

lemma mem_keys_foldl (ps : List (List Char × ℕ)) :
    ∀ (d : List (ℕ × List (List Char))) (c : ℕ),
    c ∈ ((ps.foldl (fun d p => dictAppend d p.2 p.1) d).map Prod.fst)
      ↔ c ∈ d.map Prod.fst ∨ c ∈ ps.map Prod.snd := by
  induction ps with
  | nil => intro d c; simp
  | cons p ps ih =>
    intro d c
    rw [List.foldl_cons, ih, mem_keys_dictAppend]
    simp
    tauto

lemma nodup_keys_foldl (ps : List (List Char × ℕ)) :
    ∀ d : List (ℕ × List (List Char)), (d.map Prod.fst).Nodup →
    ((ps.foldl (fun d p => dictAppend d p.2 p.1) d).map Prod.fst).Nodup := by
  induction ps with
  | nil => intro d h; exact h
  | cons p ps ih =>
    intro d h
    rw [List.foldl_cons]
    exact ih _ (nodup_keys_dictAppend d p.2 p.1 h)

lemma dictGet_clusteredLabelsDict (labels : List (List Char)) (asg : List ℕ) (c : ℕ) :
    dictGet (clusteredLabelsDict labels asg) c
      = ((labels.zip asg).filter fun p => p.2 == c).map Prod.fst := by
  rw [clusteredLabelsDict, dictGet_foldl]
  rfl

lemma mem_sortedNonemptyClusters (labels : List (List Char)) (asg : List ℕ) (c : ℕ) :
    c ∈ sortedNonemptyClusters labels asg ↔ c ∈ (labels.zip asg).map Prod.snd := by
  rw [sortedNonemptyClusters,
    (List.perm_insertionSort (· ≤ ·) _).mem_iff, clusteredLabelsDict, mem_keys_foldl]
  simp

lemma nodup_sortedNonemptyClusters (labels : List (List Char)) (asg : List ℕ) :
    (sortedNonemptyClusters labels asg).Nodup := by
  rw [sortedNonemptyClusters]
  exact (List.perm_insertionSort (· ≤ ·) _).nodup_iff.mpr
    (nodup_keys_foldl _ [] (by simp))

lemma sorted_sortedNonemptyClusters (labels : List (List Char)) (asg : List ℕ) :
    (sortedNonemptyClusters labels asg).Sorted (· ≤ ·) :=
  List.sorted_insertionSort (· ≤ ·) _

lemma splitComma_no_comma (l : List Char) (h : ',' ∉ l) : splitComma l = [l] := by
  induction l with
  | nil => rfl
  | cons c rest ih =>
    have hc : ¬c = ',' := fun hc => h (by simp [hc])
    have hrest : ',' ∉ rest := fun hm => h (by simp [hm])
    show (if c = ',' then [] :: splitComma rest
      else match splitComma rest with
        | [] => [[c]]
        | h :: t => (c :: h) :: t) = [c :: rest]
    rw [if_neg hc, ih hrest]

lemma splitComma_append_comma (l s : List Char) (h : ',' ∉ l) :
    splitComma (l ++ ',' :: s) = l :: splitComma s := by
  induction l with
  | nil => simp [splitComma]
  | cons c rest ih =>
    have hc : ¬c = ',' := fun hc => h (by simp [hc])
    have hrest : ',' ∉ rest := fun hm => h (by simp [hm])
    show (if c = ',' then [] :: splitComma (rest ++ ',' :: s)
      else match splitComma (rest ++ ',' :: s) with
        | [] => [[c]]
        | h :: t => (c :: h) :: t) = (c :: rest) :: splitComma s
    rw [if_neg hc, ih hrest]

lemma splitComma_joinComma : ∀ g : List (List Char), g ≠ [] →
    (∀ l ∈ g, ',' ∉ l) → splitComma (joinComma g) = g := by
  intro g
  induction g with
  | nil => intro h _; exact absurd rfl h
  | cons l g ih =>
    intro _ hcomma
    cases g with
    | nil => exact splitComma_no_comma l (hcomma l (by simp))
    | cons l' g' =>
      have h1 : ',' ∉ l := hcomma l (by simp)
      show splitComma (l ++ ',' :: joinComma (l' :: g')) = l :: l' :: g'
      rw [splitComma_append_comma _ _ h1,
        ih (by simp) fun x hx => hcomma x (by simp [hx])]

lemma join_groups_perm (ids : List ℕ) :
    ∀ ps : List (List Char × ℕ), ids.Nodup → (∀ p ∈ ps, p.2 ∈ ids) →
    ((ids.map fun c => (ps.filter fun p => p.2 == c).map Prod.fst).flatten).Perm
      (ps.map Prod.fst) := by
  induction ids with
  | nil =>
    intro ps _ hcov
    cases ps with
    | nil => simp
    | cons p ps => exact absurd (hcov p (by simp)) (by simp)
  | cons c ids ih =>
    intro ps hnd hcov
    have hnd' : ids.Nodup := hnd.of_cons
    have hcnotin : c ∉ ids := (List.nodup_cons.mp hnd).1
    have hcov' : ∀ p ∈ ps.filter (fun p => !(p.2 == c)), p.2 ∈ ids := by
      intro p hp
      have hmem := (List.mem_filter.mp hp).1
      have hne : p.2 ≠ c := by simpa using (List.mem_filter.mp hp).2
      have := hcov p hmem
      simp only [List.mem_cons] at this
      tauto
    have hshift : ∀ c' ∈ ids,
        ((ps.filter (fun p => !(p.2 == c))).filter fun p => p.2 == c')
          = ps.filter fun p => p.2 == c' := by
      intro c' hc'
      have hne : c' ≠ c := fun hh => hcnotin (hh ▸ hc')
      rw [List.filter_filter]
      apply List.filter_congr
      intro p _
      by_cases h : p.2 = c'
      · simp [h, hne]
      · simp [h]
    rw [List.map_cons, List.flatten_cons]
    have hmap : (ids.map fun c' => (ps.filter fun p => p.2 == c').map Prod.fst)
        = ids.map fun c' =>
            ((ps.filter (fun p => !(p.2 == c))).filter fun p => p.2 == c').map Prod.fst :=
      List.map_congr_left fun c' hc' => by rw [hshift c' hc']
    rw [hmap]
    refine List.Perm.trans (List.Perm.append_left _ (ih _ hnd' hcov')) ?_
    rw [← List.map_append]
    exact List.Perm.map Prod.fst (List.filter_append_perm _ ps)

lemma cluster_mutations_ok (clusterer : Clusterer) (m : GenotypeMatrix) (k n : PyNum)
    (out : GenotypeMatrix) (h : cluster_mutations clusterer m k n = .ok out) :
    out = runClustering clusterer m k n := by
  by_cases h1 : ¬((pyTruncInt k.val : ℚ) = k.val) ∨ k.val < 1
  · rw [cluster_mutations, if_pos h1] at h
    exact absurd h (by simp)
  · by_cases h2 : ¬((pyTruncInt n.val : ℚ) = n.val) ∨ n.val < 1
    · rw [cluster_mutations, if_neg h1, if_pos h2] at h
      exact absurd h (by simp)
    · rw [cluster_mutations, if_neg h1, if_neg h2] at h
      simpa using h.symm

/-- C3 amended (the claim as stated fails when an input label itself
contains a comma, see the counterexample): for every successful run of
cluster_mutations in which the clusterer assigns a cluster to each mutation
and no input mutation label contains a comma, splitting each output label on
commas and collecting the groups of all output columns yields exactly the
input's mutation label multiset — a total partition, no duplicates, no
omissions. -/
theorem cluster_mutations_label_partition (clusterer : Clusterer) (m : GenotypeMatrix)
    (k n : PyNum) (out : GenotypeMatrix)
    (hlen : (clusterer k n (npTranspose m.matrix)).1.length = m.mutation_labels.length)
    (hcomma : ∀ l ∈ m.mutation_labels, ',' ∉ l)
    (hout : cluster_mutations clusterer m k n = .ok out) :
    ((out.mutation_labels.map splitComma).flatten).Perm m.mutation_labels := by
  have hrun := cluster_mutations_ok clusterer m k n out hout
  subst hrun
  set asg := (clusterer k n (npTranspose m.matrix)).1 with hasg
  set ps := m.mutation_labels.zip asg with hps
  have hps_fst : ps.map Prod.fst = m.mutation_labels :=
    List.map_fst_zip _ _ (le_of_eq hlen.symm)
  have hlabels : (runClustering clusterer m k n).mutation_labels
      = (sortedNonemptyClusters m.mutation_labels asg).map
          fun c => joinComma (dictGet (clusteredLabelsDict m.mutation_labels asg) c) := rfl
  rw [hlabels]
  have hsplit : ((sortedNonemptyClusters m.mutation_labels asg).map
      fun c => joinComma (dictGet (clusteredLabelsDict m.mutation_labels asg) c)).map splitComma
      = (sortedNonemptyClusters m.mutation_labels asg).map
          fun c => dictGet (clusteredLabelsDict m.mutation_labels asg) c := by
    rw [List.map_map]
    apply List.map_congr_left
    intro c hc
    show splitComma (joinComma (dictGet (clusteredLabelsDict m.mutation_labels asg) c))
      = dictGet (clusteredLabelsDict m.mutation_labels asg) c
    have hgroup : dictGet (clusteredLabelsDict m.mutation_labels asg) c
        = (ps.filter fun p => p.2 == c).map Prod.fst :=
      dictGet_clusteredLabelsDict _ _ _
    have hc_mem : c ∈ ps.map Prod.snd := (mem_sortedNonemptyClusters _ _ _).mp hc
    have hne : dictGet (clusteredLabelsDict m.mutation_labels asg) c ≠ [] := by
      rw [hgroup]
      obtain ⟨p, hp, hpc⟩ := List.mem_map.mp hc_mem
      have hpf : p ∈ ps.filter fun p => p.2 == c :=
        List.mem_filter.mpr ⟨hp, by simp [hpc]⟩
      exact List.ne_nil_of_mem (List.mem_map_of_mem Prod.fst hpf)
    have hcf : ∀ l ∈ dictGet (clusteredLabelsDict m.mutation_labels asg) c, ',' ∉ l := by
      intro l hl
      rw [hgroup] at hl
      obtain ⟨p, hp, hpl⟩ := List.mem_map.mp hl
      have hpm : p ∈ ps := (List.mem_filter.mp hp).1
      have hlm : l ∈ ps.map Prod.fst := hpl ▸ List.mem_map_of_mem Prod.fst hpm
      rw [hps_fst] at hlm
      exact hcomma l hlm
    exact splitComma_joinComma _ hne hcf
  rw [hsplit]
  have hrewrite : (sortedNonemptyClusters m.mutation_labels asg).map
      (fun c => dictGet (clusteredLabelsDict m.mutation_labels asg) c)
      = (sortedNonemptyClusters m.mutation_labels asg).map
          fun c => (ps.filter fun p => p.2 == c).map Prod.fst :=
    List.map_congr_left fun c _ => dictGet_clusteredLabelsDict _ _ _
  rw [hrewrite]
  have hperm := join_groups_perm (sortedNonemptyClusters m.mutation_labels asg) ps
    (nodup_sortedNonemptyClusters _ _)
    (fun p hp => (mem_sortedNonemptyClusters _ _ _).mpr (List.mem_map_of_mem Prod.snd hp))
  rw [hps_fst] at hperm
  exact hperm

/-- A concrete genotype matrix whose single mutation label contains a comma. -/
def gmComma : GenotypeMatrix :=
  { matrix := [[0]], cell_labels := [['c']],
    mutation_labels := [['x', ',', 'y']] }

/-- C3 counterexample: on an input whose only mutation label is the string
"x,y", the run succeeds and returns that label unchanged, but splitting the
output labels on commas gives the two strings "x" and "y", which is not the
input's one-element label multiset — the claimed partition property fails. -/
theorem cluster_mutations_label_partition_cex :
    cluster_mutations clusterer0 gmComma (.int 1) (.int 10) = .ok gmComma
    ∧ ¬((gmComma.mutation_labels.map splitComma).flatten).Perm
        gmComma.mutation_labels := by
  constructor
  · rfl
  · decide

/-- Witness for `cluster_mutations_label_partition` at a concrete run. -/
theorem cluster_mutations_label_partition_wit :
    (clusterer0 (.int 1) (.int 10) (npTranspose gm0.matrix)).1.length
        = gm0.mutation_labels.length
    ∧ (∀ l ∈ gm0.mutation_labels, ',' ∉ l)
    ∧ cluster_mutations clusterer0 gm0 (.int 1) (.int 10) = .ok gm0
    ∧ ((gm0.mutation_labels.map splitComma).flatten).Perm gm0.mutation_labels :=
  ⟨by decide, by decide, rfl,
    cluster_mutations_label_partition clusterer0 gm0 (.int 1) (.int 10) gm0
      (by decide) (by decide) rfl⟩

/-- C4: for every successful run on a matrix with at least one mutation
column, under the clusterer contract (one cluster id per mutation, K
centroid rows each of cell-count length, ids below K, K being k's value),
the output has the input's row count and its cell labels unchanged, each
output row has one entry per surviving cluster, and the number of output
mutation columns equals the number of non-empty clusters — at least 1 and
at most k. -/
theorem cluster_mutations_shape (clusterer : Clusterer) (m : GenotypeMatrix)
    (k n : PyNum) (out : GenotypeMatrix) (K : ℕ)
    (hmut : m.mutation_labels ≠ [])
    (hlen : (clusterer k n (npTranspose m.matrix)).1.length = m.mutation_labels.length)
    (hcent : ∀ r ∈ (clusterer k n (npTranspose m.matrix)).2, r.length = m.matrix.length)
    (hK : (K : ℚ) = k.val)
    (hcents_len : (clusterer k n (npTranspose m.matrix)).2.length = K)
    (hbound : ∀ a ∈ (clusterer k n (npTranspose m.matrix)).1, a < K)
    (hout : cluster_mutations clusterer m k n = .ok out) :
    out.matrix.length = m.matrix.length
    ∧ out.cell_labels = m.cell_labels
    ∧ (∀ row ∈ out.matrix, row.length = out.mutation_labels.length)
    ∧ out.mutation_labels.length
        = ((clusterer k n (npTranspose m.matrix)).1.dedup).length
    ∧ 1 ≤ out.mutation_labels.length
    ∧ (out.mutation_labels.length : ℚ) ≤ k.val := by
  have hrun := cluster_mutations_ok clusterer m k n out hout
  subst hrun
  set asg := (clusterer k n (npTranspose m.matrix)).1 with hasg
  set cents := (clusterer k n (npTranspose m.matrix)).2 with hcents
  set sorted := sortedNonemptyClusters m.mutation_labels asg with hsorteddef
  have hps_snd : (m.mutation_labels.zip asg).map Prod.snd = asg :=
    List.map_snd_zip _ _ (le_of_eq hlen)
  have hmem_asg : ∀ c, c ∈ sorted ↔ c ∈ asg := by
    intro c
    rw [hsorteddef, mem_sortedNonemptyClusters, hps_snd]
  have hnodup : sorted.Nodup := hsorteddef ▸ nodup_sortedNonemptyClusters _ _
  have hasg_ne : asg ≠ [] := by
    intro hnil
    have hz : m.mutation_labels.length = 0 := by rw [← hlen, hnil]; rfl
    exact hmut (List.length_eq_zero.mp hz)
  have hsorted_ne : sorted ≠ [] := by
    obtain ⟨a, asg', ha⟩ := List.exists_cons_of_ne_nil hasg_ne
    have ham : a ∈ sorted := (hmem_asg a).mpr (ha ▸ List.mem_cons_self a asg')
    exact List.ne_nil_of_mem ham
  have hlabels_eq : (runClustering clusterer m k n).mutation_labels
      = sorted.map fun c =>
          joinComma (dictGet (clusteredLabelsDict m.mutation_labels asg) c) := rfl
  have hmatrix_eq : (runClustering clusterer m k n).matrix
      = npTranspose (sorted.map fun c => cents.getD c []) := rfl
  have hlab_len : (runClustering clusterer m k n).mutation_labels.length
      = sorted.length := by
    rw [hlabels_eq, List.length_map]
  obtain ⟨c0, rest, hc0⟩ := List.exists_cons_of_ne_nil hsorted_ne
  have hc0_mem : c0 ∈ sorted := hc0 ▸ List.mem_cons_self c0 rest
  have hc0_lt : c0 < cents.length := by
    rw [hcents_len]
    exact hbound c0 ((hmem_asg c0).mp hc0_mem)
  have hhead : (sorted.map fun c => cents.getD c []).headD [] = cents.getD c0 [] := by
    rw [hc0]; rfl
  have hc0_len : (cents.getD c0 []).length = m.matrix.length := by
    rw [List.getD_eq_getElem cents [] hc0_lt]
    exact hcent _ (List.getElem_mem hc0_lt)
  refine ⟨?_, rfl, ?_, ?_, ?_, ?_⟩
  · rw [hmatrix_eq, npTranspose, List.length_map, List.length_range, hhead, hc0_len]
  · intro row hrow
    rw [hmatrix_eq, npTranspose] at hrow
    obtain ⟨j, hj, hrj⟩ := List.mem_map.mp hrow
    rw [← hrj, List.length_map, hlab_len, List.length_map]
  · rw [hlab_len]
    have hfin : sorted.toFinset = asg.dedup.toFinset := by
      ext c
      simp only [List.mem_toFinset, List.mem_dedup]
      exact hmem_asg c
    rw [← List.toFinset_card_of_nodup hnodup,
      ← List.toFinset_card_of_nodup (List.nodup_dedup asg), hfin]
  · rw [hlab_len]
    have hpos := List.length_pos.mpr hsorted_ne
    omega
  · rw [hlab_len]
    have hsub : sorted.toFinset ⊆ Finset.range K := by
      intro c hc
      rw [List.mem_toFinset] at hc
      exact Finset.mem_range.mpr (hbound c ((hmem_asg c).mp hc))
    have hcard := Finset.card_le_card hsub
    rw [List.toFinset_card_of_nodup hnodup, Finset.card_range] at hcard
    calc (sorted.length : ℚ) ≤ (K : ℚ) := by exact_mod_cast hcard
      _ = k.val := hK

/-- Witness for `cluster_mutations_shape` at a concrete run. -/
theorem cluster_mutations_shape_wit :
    gm0.mutation_labels ≠ []
    ∧ (clusterer0 (.int 1) (.int 10) (npTranspose gm0.matrix)).1.length
        = gm0.mutation_labels.length
    ∧ (∀ r ∈ (clusterer0 (.int 1) (.int 10) (npTranspose gm0.matrix)).2,
        r.length = gm0.matrix.length)
    ∧ ((1 : ℕ) : ℚ) = (PyNum.int 1).val
    ∧ (clusterer0 (.int 1) (.int 10) (npTranspose gm0.matrix)).2.length = 1
    ∧ (∀ a ∈ (clusterer0 (.int 1) (.int 10) (npTranspose gm0.matrix)).1, a < 1)
    ∧ cluster_mutations clusterer0 gm0 (.int 1) (.int 10) = .ok gm0
    ∧ (gm0.matrix.length = gm0.matrix.length
      ∧ gm0.cell_labels = gm0.cell_labels
      ∧ (∀ row ∈ gm0.matrix, row.length = gm0.mutation_labels.length)
      ∧ gm0.mutation_labels.length
          = ((clusterer0 (.int 1) (.int 10) (npTranspose gm0.matrix)).1.dedup).length
      ∧ 1 ≤ gm0.mutation_labels.length
      ∧ ((gm0.mutation_labels.length : ℕ) : ℚ) ≤ (PyNum.int 1).val) :=
  ⟨by decide, by decide, by decide, by norm_num [PyNum.val], by decide, by decide, rfl,
    cluster_mutations_shape clusterer0 gm0 (.int 1) (.int 10) gm0 1
      (by decide) (by decide) (by decide) (by norm_num [PyNum.val])
      (by decide) (by decide) rfl⟩

/-- C5: for every successful run (under the clusterer contract that every
mutation point receives an id and ids index the centroid grid), the output
columns are exactly: the ascending list of the cluster ids that received at
least one mutation (empty clusters are discarded), each labelled by its
members' original labels joined with single commas in original column
order, and each valued by that cluster's centroid row, transposed back to
cell-major orientation. -/
theorem cluster_mutations_column_construction (clusterer : Clusterer) (m : GenotypeMatrix)
    (k n : PyNum) (out : GenotypeMatrix)
    (hlen : (clusterer k n (npTranspose m.matrix)).1.length = m.mutation_labels.length)
    (hbound : ∀ a ∈ (clusterer k n (npTranspose m.matrix)).1,
        a < (clusterer k n (npTranspose m.matrix)).2.length)
    (hout : cluster_mutations clusterer m k n = .ok out) :
    ∃ ids : List ℕ,
      ids.Sorted (· < ·)
      ∧ (∀ c, c ∈ ids ↔ c ∈ (clusterer k n (npTranspose m.matrix)).1)
      ∧ (∀ c ∈ ids, c < (clusterer k n (npTranspose m.matrix)).2.length)
      ∧ out.mutation_labels = (ids.map fun c => joinComma
          (((m.mutation_labels.zip (clusterer k n (npTranspose m.matrix)).1).filter
              fun p => p.2 == c).map Prod.fst))
      ∧ out.matrix = npTranspose (ids.map fun c =>
          (clusterer k n (npTranspose m.matrix)).2.getD c []) := by
  have hrun := cluster_mutations_ok clusterer m k n out hout
  subst hrun
  set asg := (clusterer k n (npTranspose m.matrix)).1 with hasg
  have hps_snd : (m.mutation_labels.zip asg).map Prod.snd = asg :=
    List.map_snd_zip _ _ (le_of_eq hlen)
  have hmem_asg : ∀ c, c ∈ sortedNonemptyClusters m.mutation_labels asg ↔ c ∈ asg := by
    intro c
    rw [mem_sortedNonemptyClusters, hps_snd]
  refine ⟨sortedNonemptyClusters m.mutation_labels asg, ?_, hmem_asg, ?_, ?_, rfl⟩
  · exact (sorted_sortedNonemptyClusters _ _).lt_of_le
      (nodup_sortedNonemptyClusters _ _)
  · intro c hc
    exact hbound c ((hmem_asg c).mp hc)
  · show (sortedNonemptyClusters m.mutation_labels asg).map
        (fun c => joinComma (dictGet (clusteredLabelsDict m.mutation_labels asg) c)) = _
    exact List.map_congr_left fun c _ => by rw [dictGet_clusteredLabelsDict]

/-- Witness for `cluster_mutations_column_construction` at a concrete run. -/
theorem cluster_mutations_column_construction_wit :
    (clusterer0 (.int 1) (.int 10) (npTranspose gm0.matrix)).1.length
        = gm0.mutation_labels.length
    ∧ (∀ a ∈ (clusterer0 (.int 1) (.int 10) (npTranspose gm0.matrix)).1,
        a < (clusterer0 (.int 1) (.int 10) (npTranspose gm0.matrix)).2.length)
    ∧ cluster_mutations clusterer0 gm0 (.int 1) (.int 10) = .ok gm0
    ∧ (∃ ids : List ℕ,
        ids.Sorted (· < ·)
        ∧ (∀ c, c ∈ ids ↔ c ∈ (clusterer0 (.int 1) (.int 10) (npTranspose gm0.matrix)).1)
        ∧ (∀ c ∈ ids, c < (clusterer0 (.int 1) (.int 10) (npTranspose gm0.matrix)).2.length)
        ∧ gm0.mutation_labels = (ids.map fun c => joinComma
            (((gm0.mutation_labels.zip
                (clusterer0 (.int 1) (.int 10) (npTranspose gm0.matrix)).1).filter
                fun p => p.2 == c).map Prod.fst))
        ∧ gm0.matrix = npTranspose (ids.map fun c =>
            (clusterer0 (.int 1) (.int 10) (npTranspose gm0.matrix)).2.getD c [])) :=
  ⟨by decide, by decide, rfl,
    cluster_mutations_column_construction clusterer0 gm0 (.int 1) (.int 10) gm0
      (by decide) (by decide) rfl⟩
